import Mathlib

/-!
Shallow embedding of the replication-protocol core of libpaxos-cpp.

Embedded source files:
* src/paxos++/detail/protocol/basic_paxos.cpp — the leader-side handlers
  (start, send_prepare, receive_promise, send_accept, receive_accepted) and
  the follower-side handlers (receive_prepare, receive_accept) of the
  prepare/accept rounds;
* src/paxos++/detail/protocol/handshake.cpp — step4, the initiator-side
  completion of the peer handshake;
* src/paxos++/error.hpp — the client-visible error codes.

Modelling conventions:
* A std::map keyed by a tcp endpoint is an association list with unique keys;
  operator[] is setEntry, find is lookupA, size is List.length.  No verified
  property below depends on the key iteration order of std::map.
* Endpoints, host UUIDs and connection handles are abstracted to Nat.
* PAXOS_ASSERT halts the process (spec section 7: asserts are programmer-error
  checks and halt the process), so every handler that contains one returns
  Except PaxosAbort _, with Except.error PaxosAbort.assertViolation for a
  failed assertion; PAXOS_UNREACHABLE is modelled the same way.
* write_command calls are collected into a list of (destination, command)
  pairs returned by the handler; read_command registrations, logging and the
  io_service plumbing have no protocol-visible effect and are dropped.
* A protocol command is a record of every field used by the embedded
  handlers; a field the sender does not set stays at its serialization
  default, in particular an unset workload is the empty string (the spec
  lists workload as present only on accept, accepted and the client request,
  and receive_prepare sets only the type of its promise/fail reply).
* The 64-bit proposal counter is a Nat reduced modulo 2^64 wherever the
  source performs arithmetic on it: the ++ of basic_paxos::start wraps at
  2^64 - 1.  receive_prepare only compares against and copies the received
  64-bit value, so it involves no reduction.
-/

/-- Liveness/role state of a peer record (remote_server states; spec
section 3 gives the closed set unknown, leader, follower, dead). -/
inductive RemoteState
  | state_unknown
  | state_leader
  | state_follower
  | state_dead
  deriving DecidableEq, Repr

/-- The command types of basic_paxos.cpp and handshake.cpp. -/
inductive CommandType
  | type_handshake_start
  | type_handshake_response
  | type_request_prepare
  | type_request_promise
  | type_request_fail
  | type_request_accept
  | type_request_accepted
  deriving DecidableEq, Repr

/-- The on-wire command record.  Fields not set by the sender keep their
serialization defaults. -/
structure Command where
  type : CommandType := CommandType.type_handshake_start
  proposal_id : Nat := 0
  workload : String := ""
  host_id : Nat := 0
  host_endpoint : Nat := 0
  host_state : RemoteState := RemoteState.state_unknown
  deriving DecidableEq, Repr

/-- Per-peer acknowledgement state in a leader round (basic_paxos uses
response_none for pending, response_ack for promised, response_reject for a
fail reply). -/
inductive Response
  | response_none
  | response_ack
  | response_reject
  deriving DecidableEq, Repr

/-- Outcome of a PAXOS_ASSERT or PAXOS_UNREACHABLE firing: the process
halts. -/
inductive PaxosAbort
  | assertViolation
  deriving DecidableEq, Repr

/-- Destination of a write_command call: the originating client connection
or the connection of the peer with the given endpoint. -/
inductive Dest
  | client
  | peer (endpoint : Nat)
  deriving DecidableEq, Repr

/-- The per-request leader state (struct state of basic_paxos.hpp as used by
basic_paxos.cpp): the acks map and the responses map, both keyed by peer
endpoint. -/
structure RoundState where
  accepted : List (Nat × Response) := []
  responses : List (Nat × String) := []
  deriving DecidableEq, Repr

/-- Association-list lookup: std::map::find. -/
def lookupA {β : Type} : List (Nat × β) → Nat → Option β
  | [], _ => none
  | (k, v) :: t, k' => if k = k' then some v else lookupA t k'

/-- Association-list store: std::map::operator[] followed by assignment
(replaces the entry if the key is present, inserts it otherwise). -/
def setEntry {β : Type} : List (Nat × β) → Nat → β → List (Nat × β)
  | [], k, v => [(k, v)]
  | (k', v') :: t, k, v =>
      if k' = k then (k, v) :: t else (k', v') :: setEntry t k v

/-- The modulus of the uint64_t proposal counter. -/
def uint64Size : Nat := 2 ^ 64

namespace basic_paxos

/-- basic_paxos::send_prepare: assert the server has no entry yet, record it
as response_none, and emit the prepare command carrying the proposal id. -/
def send_prepare (proposal_id : Nat) (server_endpoint : Nat) (st : RoundState) :
    Except PaxosAbort (RoundState × Command) :=
  if (lookupA st.accepted server_endpoint).isSome then
    Except.error PaxosAbort.assertViolation
  else
    Except.ok
      ({ st with accepted := setEntry st.accepted server_endpoint Response.response_none },
       { type := CommandType.type_request_prepare, proposal_id := proposal_id })

/-- The loop body of basic_paxos::start: iterate the quorum servers, skip the
ones in state_dead, and call send_prepare for every other one, collecting
the emitted prepare commands. -/
def sendPrepares (proposal_id : Nat) :
    List (Nat × RemoteState) → RoundState →
      Except PaxosAbort (RoundState × List (Dest × Command))
  | [], st => Except.ok (st, [])
  | (e, s) :: t, st =>
      if s = RemoteState.state_dead then
        sendPrepares proposal_id t st
      else
        match send_prepare proposal_id e st with
        | Except.error err => Except.error err
        | Except.ok (st', c) =>
            match sendPrepares proposal_id t st' with
            | Except.error err => Except.error err
            | Except.ok (st'', outs) => Except.ok (st'', (Dest.peer e, c) :: outs)

/-- basic_paxos::start: assert we are the leader, increment the proposal
counter (++ on a uint64_t, hence modulo 2^64), allocate a fresh round state
and send prepare to every non-dead server.  Returns the new proposal
counter, the round state and the commands written. -/
def start (we_are_leader : Bool) (proposal_id : Nat)
    (servers : List (Nat × RemoteState)) (_cmd : Command) :
    Except PaxosAbort (Nat × RoundState × List (Dest × Command)) :=
  if we_are_leader then
    match sendPrepares ((proposal_id + 1) % uint64Size) servers ⟨[], []⟩ with
    | Except.error err => Except.error err
    | Except.ok (st, outs) =>
        Except.ok ((proposal_id + 1) % uint64Size, st, outs)
  else Except.error PaxosAbort.assertViolation

/-- basic_paxos::receive_prepare: assert we are not the leader; if the
incoming proposal id is strictly greater than the local counter, raise the
counter to it and reply promise, otherwise leave the counter and reply
fail.  Returns the new counter and the reply written back. -/
def receive_prepare (we_are_leader : Bool) (proposal_id : Nat) (cmd : Command) :
    Except PaxosAbort (Nat × Command) :=
  if we_are_leader then Except.error PaxosAbort.assertViolation
  else if cmd.proposal_id > proposal_id then
    Except.ok (cmd.proposal_id, { type := CommandType.type_request_promise })
  else
    Except.ok (proposal_id, { type := CommandType.type_request_fail })

/-- basic_paxos::receive_accept (follower side): run the workload handler on
the received payload and reply accepted with the result. -/
def receive_accept (process_workload : String → String) (cmd : Command) : Command :=
  { type := CommandType.type_request_accepted,
    workload := process_workload cmd.workload }

/-- The everyone_promised fold of basic_paxos::receive_promise. -/
def everyonePromised (accepted : List (Nat × Response)) : Bool :=
  accepted.foldl (fun b p => b && (p.2 == Response.response_ack)) true

/-- The accept command emitted by basic_paxos::send_accept. -/
def acceptCommand (byte_array : String) : Command :=
  { type := CommandType.type_request_accept, workload := byte_array }

/-- The send_accept loop of basic_paxos::receive_promise: for every entry of
the acks map, assert its value is response_ack and emit the accept command
carrying the request payload. -/
def sendAccepts (accepted : List (Nat × Response)) (byte_array : String) :
    List (Nat × Response) → Except PaxosAbort (List (Dest × Command))
  | [] => Except.ok []
  | (e, _) :: t =>
      if lookupA accepted e == some Response.response_ack then
        match sendAccepts accepted byte_array t with
        | Except.error err => Except.error err
        | Except.ok outs => Except.ok ((Dest.peer e, acceptCommand byte_array) :: outs)
      else Except.error PaxosAbort.assertViolation

/-- basic_paxos::receive_accepted: assert no response from this endpoint is
recorded yet, record the received workload, and if the responses map now has
as many entries as the acks map, write the received command back to the
client connection. -/
def receive_accepted (st : RoundState) (server_endpoint : Nat) (cmd : Command) :
    Except PaxosAbort (RoundState × List (Dest × Command)) :=
  if (lookupA st.responses server_endpoint).isSome then
    Except.error PaxosAbort.assertViolation
  else
    let st' : RoundState :=
      { st with responses := setEntry st.responses server_endpoint cmd.workload }
    if st'.responses.length = st'.accepted.length then
      Except.ok (st', [(Dest.client, cmd)])
    else
      Except.ok (st', [])

/-- The switch on the reply type at the top of basic_paxos::receive_promise:
promise records response_ack, fail records response_reject, anything else is
PAXOS_UNREACHABLE. -/
def ackOfReply (t : CommandType) : Except PaxosAbort Response :=
  match t with
  | CommandType.type_request_promise => Except.ok Response.response_ack
  | CommandType.type_request_fail => Except.ok Response.response_reject
  | _ => Except.error PaxosAbort.assertViolation

/-- basic_paxos::receive_promise: assert we are the leader, record the reply
in the acks map, and if every entry is now response_ack, send accept to every
entry, then synthesize the leader self-step: build an accepted command whose
workload is the handler applied to the workload field of the received
promise command (the source passes command.workload (), not byte_array),
mark self as response_ack and feed the command into receive_accepted as if
it had arrived from self. -/
def receive_promise (we_are_leader : Bool) (process_workload : String → String)
    (self_endpoint server_endpoint : Nat) (byte_array : String)
    (cmd : Command) (st : RoundState) :
    Except PaxosAbort (RoundState × List (Dest × Command)) :=
  if we_are_leader then
    match ackOfReply cmd.type with
    | Except.error err => Except.error err
    | Except.ok r =>
        let st1 : RoundState :=
          { st with accepted := setEntry st.accepted server_endpoint r }
        if everyonePromised st1.accepted then
          match sendAccepts st1.accepted byte_array st1.accepted with
          | Except.error err => Except.error err
          | Except.ok accepts =>
              let tmp : Command :=
                { type := CommandType.type_request_accepted,
                  workload := process_workload cmd.workload }
              let st2 : RoundState :=
                { st1 with
                  accepted := setEntry st1.accepted self_endpoint Response.response_ack }
              match receive_accepted st2 self_endpoint tmp with
              | Except.error err => Except.error err
              | Except.ok (st3, outs) => Except.ok (st3, accepts ++ outs)
        else Except.ok (st1, [])
  else Except.error PaxosAbort.assertViolation

end basic_paxos

namespace handshake

/-- A quorum peer record as touched by handshake::step4: the stored identity,
the stored liveness state and the optional cached connection. -/
structure PeerRecord where
  id : Nat
  state : RemoteState
  connection : Option Nat
  deriving DecidableEq, Repr

/-- handshake::step4: assert the responder's self-reported endpoint equals
the endpoint we dialed, store the responder's state and id into the peer
record, and cache the connection of this handshake run if the record has
none. -/
def step4 (endpoint : Nat) (connection : Nat) (cmd : Command) (rec : PeerRecord) :
    Except PaxosAbort PeerRecord :=
  if cmd.host_endpoint = endpoint then
    let rec1 : PeerRecord := { rec with state := cmd.host_state, id := cmd.host_id }
    if rec1.connection.isSome then Except.ok rec1
    else Except.ok { rec1 with connection := some connection }
  else Except.error PaxosAbort.assertViolation

end handshake

/-- An event on the leader node, for tracing the proposal counter across a
sequence of client requests: a client request handled by basic_paxos::start,
or any other handler of basic_paxos.cpp (receive_promise, send_accept,
receive_accepted), none of which touches proposal_id_. -/
inductive LeaderEvent
  | request (servers : List (Nat × RemoteState)) (cmd : Command)
  | passive
  deriving Repr

/-- The proposal ids assigned to the successive client requests of a leader
trace, starting from the given counter value.  A failed assertion halts the
process, so no later request is assigned an id. -/
def requestIds (proposal_id : Nat) : List LeaderEvent → List Nat
  | [] => []
  | LeaderEvent.request servers c :: t =>
      match basic_paxos.start true proposal_id servers c with
      | Except.ok (pid', _, _) => pid' :: requestIds pid' t
      | Except.error _ => []
  | LeaderEvent.passive :: t => requestIds proposal_id t

/-- The number of entries of an acks map whose value is response_ack, i.e.
the number of promised peers of a leader round (spec wording for the
completion condition of the response-collection rule). -/
def promisedCount (accepted : List (Nat × Response)) : Nat :=
  (accepted.filter (fun p => p.2 == Response.response_ack)).length

/-- A prepare command with proposal id 5, used for concrete instantiation. -/
def prepare5Command : Command :=
  { type := CommandType.type_request_prepare, proposal_id := 5 }

/-- The promise reply built by receive_prepare: only the type is set. -/
def promiseCommand : Command := { type := CommandType.type_request_promise }

/-- The fail reply built by receive_prepare: only the type is set. -/
def failCommand : Command := { type := CommandType.type_request_fail }

/-- A client request carrying an opaque payload. -/
def clientCommand : Command := { workload := "hello" }

/-- An accepted reply carrying payload q. -/
def acceptedQCommand : Command :=
  { type := CommandType.type_request_accepted, workload := "q" }

/-- An accepted reply carrying payload b. -/
def acceptedBCommand : Command :=
  { type := CommandType.type_request_accepted, workload := "b" }

/-- A handshake_response whose sender self-reports endpoint 5, id 77 and
state follower. -/
def handshakeResponseCommand : Command :=
  { type := CommandType.type_handshake_response,
    host_id := 77, host_endpoint := 5,
    host_state := RemoteState.state_follower }

theorem lookupA_mem {β : Type} {l : List (Nat × β)} {k : Nat} {v : β}
    (h : lookupA l k = some v) : (k, v) ∈ l := by
  induction l with
  | nil => simp [lookupA] at h
  | cons p t ih =>
      obtain ⟨k', v'⟩ := p
      by_cases hk : k' = k
      · subst hk
        simp [lookupA] at h
        subst h
        exact List.mem_cons_self _ _
      · simp [lookupA, hk] at h
        exact List.mem_cons_of_mem _ (ih h)

theorem mem_setEntry {β : Type} {l : List (Nat × β)} {k : Nat} {v : β}
    {p : Nat × β} (h : p ∈ setEntry l k v) : p ∈ l ∨ p = (k, v) := by
  induction l with
  | nil => simp [setEntry] at h; right; exact h
  | cons q t ih =>
      obtain ⟨k', v'⟩ := q
      by_cases hk : k' = k
      · subst hk
        simp only [setEntry, if_pos rfl] at h
        rcases List.mem_cons.mp h with h1 | h1
        · right; exact h1
        · left; exact List.mem_cons_of_mem _ h1
      · simp only [setEntry, if_neg hk] at h
        rcases List.mem_cons.mp h with h1 | h1
        · left; exact h1 ▸ List.mem_cons_self _ _
        · rcases ih h1 with h2 | h2
          · left; exact List.mem_cons_of_mem _ h2
          · right; exact h2

theorem lookupA_setEntry_self {β : Type} (l : List (Nat × β)) (k : Nat) (v : β) :
    lookupA (setEntry l k v) k = some v := by
  induction l with
  | nil => simp [setEntry, lookupA]
  | cons q t ih =>
      obtain ⟨k', v'⟩ := q
      by_cases hk : k' = k
      · subst hk; simp [setEntry, lookupA]
      · simp [setEntry, lookupA, hk, ih]

theorem lookupA_setEntry_ne {β : Type} (l : List (Nat × β)) (k k' : Nat) (v : β)
    (h : k ≠ k') : lookupA (setEntry l k v) k' = lookupA l k' := by
  induction l with
  | nil => simp [setEntry, lookupA, h]
  | cons q t ih =>
      obtain ⟨k0, v0⟩ := q
      by_cases hk : k0 = k
      · subst hk; simp [setEntry, lookupA, h]
      · simp only [setEntry, if_neg hk]
        by_cases hk' : k0 = k'
        · simp [lookupA, hk']
        · simp [lookupA, hk', ih]

theorem foldl_and_all {α : Type} (f : α → Bool) (l : List α) (b : Bool) :
    l.foldl (fun acc x => acc && f x) b = (b && l.all f) := by
  induction l generalizing b with
  | nil => simp
  | cons a t ih => simp [List.foldl_cons, ih, Bool.and_assoc]

theorem everyonePromised_iff (l : List (Nat × Response)) :
    basic_paxos.everyonePromised l = true ↔
      ∀ p ∈ l, p.2 = Response.response_ack := by
  unfold basic_paxos.everyonePromised
  rw [foldl_and_all]
  simp [List.all_eq_true]

theorem sendAccepts_ok_mem {m : List (Nat × Response)} {w : String}
    {entries : List (Nat × Response)} {outs : List (Dest × Command)}
    (h : basic_paxos.sendAccepts m w entries = Except.ok outs)
    {d : Dest} {c : Command} (hm : (d, c) ∈ outs) :
    ∃ e, d = Dest.peer e ∧ c = basic_paxos.acceptCommand w ∧
      lookupA m e = some Response.response_ack := by
  induction entries generalizing outs with
  | nil =>
      simp only [basic_paxos.sendAccepts] at h
      cases h
      simp at hm
  | cons p t ih =>
      obtain ⟨e, v⟩ := p
      simp only [basic_paxos.sendAccepts] at h
      by_cases hl : lookupA m e == some Response.response_ack
      · rw [if_pos hl] at h
        cases hrec : basic_paxos.sendAccepts m w t with
        | error err => rw [hrec] at h; cases h
        | ok outs' =>
            rw [hrec] at h
            cases h
            rcases List.mem_cons.mp hm with h1 | h1
            · refine ⟨e, ?_, ?_, ?_⟩
              · exact congrArg Prod.fst h1
              · exact congrArg Prod.snd h1
              · exact beq_iff_eq.mp hl
            · exact ih hrec h1
      · rw [if_neg hl] at h
        cases h

theorem receive_accepted_ok {st : RoundState} {e : Nat} {cmd : Command}
    {st' : RoundState} {outs : List (Dest × Command)}
    (h : basic_paxos.receive_accepted st e cmd = Except.ok (st', outs)) :
    st'.accepted = st.accepted ∧
    st'.responses = setEntry st.responses e cmd.workload ∧
    (outs = [] ∨ outs = [(Dest.client, cmd)]) := by
  unfold basic_paxos.receive_accepted at h
  by_cases hs : (lookupA st.responses e).isSome
  · rw [if_pos hs] at h; cases h
  · rw [if_neg hs] at h
    by_cases hlen :
        (setEntry st.responses e cmd.workload).length = st.accepted.length
    · simp only [hlen, if_pos] at h
      cases h
      exact ⟨rfl, rfl, Or.inr rfl⟩
    · simp only [hlen, if_neg, if_false] at h
      cases h
      exact ⟨rfl, rfl, Or.inl rfl⟩

theorem start_ok_pid {b : Bool} {pid : Nat} {servers : List (Nat × RemoteState)}
    {c : Command} {out : Nat × RoundState × List (Dest × Command)}
    (h : basic_paxos.start b pid servers c = Except.ok out) :
    out.1 = (pid + 1) % uint64Size := by
  unfold basic_paxos.start at h
  cases b with
  | false => simp at h
  | true =>
      simp only [if_pos] at h
      cases hsp : basic_paxos.sendPrepares ((pid + 1) % uint64Size) servers
          ⟨[], []⟩ with
      | error err => rw [hsp] at h; cases h
      | ok p => rw [hsp] at h; cases h; rfl

theorem mem_requestIds_lt :
    ∀ (evs : List LeaderEvent) (pid x : Nat),
      pid + evs.length < uint64Size → x ∈ requestIds pid evs → pid < x := by
  intro evs
  induction evs with
  | nil => intro pid x hb hx; simp [requestIds] at hx
  | cons ev t ih =>
      intro pid x hb hx
      cases ev with
      | passive =>
          refine ih pid x ?_ (by simpa [requestIds] using hx)
          simp only [List.length_cons] at hb
          omega
      | request servers c =>
          simp only [requestIds] at hx
          cases hst : basic_paxos.start true pid servers c with
          | error err => rw [hst] at hx; simp at hx
          | ok out =>
              obtain ⟨pid', st', outs⟩ := out
              rw [hst] at hx
              have hp : pid' = (pid + 1) % uint64Size := start_ok_pid hst
              simp only [List.length_cons] at hb
              have hp' : pid' = pid + 1 := by
                rw [hp, Nat.mod_eq_of_lt (by omega)]
              rcases List.mem_cons.mp hx with h1 | h1
              · omega
              · have hb' : pid' + t.length < uint64Size := by omega
                have := ih pid' x hb' h1
                omega

theorem requestIds_pairwise :
    ∀ (evs : List LeaderEvent) (pid : Nat),
      pid + evs.length < uint64Size →
      (requestIds pid evs).Pairwise (fun a b => a < b) := by
  intro evs
  induction evs with
  | nil => intro pid hb; simp [requestIds]
  | cons ev t ih =>
      intro pid hb
      cases ev with
      | passive =>
          simp only [List.length_cons] at hb
          simpa [requestIds] using ih pid (by omega)
      | request servers c =>
          simp only [requestIds]
          cases hst : basic_paxos.start true pid servers c with
          | error err => simp
          | ok out =>
              obtain ⟨pid', st', outs⟩ := out
              simp only [List.length_cons] at hb
              have hp : pid' = (pid + 1) % uint64Size := start_ok_pid hst
              have hp' : pid' = pid + 1 := by
                rw [hp, Nat.mod_eq_of_lt (by omega)]
              have hb' : pid' + t.length < uint64Size := by omega
              refine List.Pairwise.cons ?_ (ih pid' hb')
              intro y hy
              exact mem_requestIds_lt t pid' y hb' hy

/-- C2: for every inbound prepare carrying proposal id N received by a
follower: if N is strictly greater than the local proposal counter, the
counter is set to N and the reply is promise; otherwise the counter is
unchanged and the reply is fail. -/
theorem claim_c2_prepare_promise_or_fail : ∀ (pid : Nat) (cmd : Command),
    (cmd.proposal_id > pid →
      basic_paxos.receive_prepare false pid cmd =
        Except.ok (cmd.proposal_id, { type := CommandType.type_request_promise }))
  ∧ (cmd.proposal_id ≤ pid →
      basic_paxos.receive_prepare false pid cmd =
        Except.ok (pid, { type := CommandType.type_request_fail })) := by
  intro pid cmd
  constructor
  · intro h
    simp [basic_paxos.receive_prepare, h]
  · intro h
    have h' : ¬ (cmd.proposal_id > pid) := Nat.not_lt.mpr h
    simp [basic_paxos.receive_prepare, h']

/-- Witness for C2: a prepare with id 5 against counter 3 yields promise and
counter 5; against counter 7 it yields fail and counter 7. -/
theorem claim_c2_prepare_promise_or_fail_witness :
    basic_paxos.receive_prepare false 3 prepare5Command =
      Except.ok (prepare5Command.proposal_id,
        { type := CommandType.type_request_promise }) ∧
    basic_paxos.receive_prepare false 7 prepare5Command =
      Except.ok (7, { type := CommandType.type_request_fail }) :=
  ⟨(claim_c2_prepare_promise_or_fail 3 prepare5Command).1 (by decide),
   (claim_c2_prepare_promise_or_fail 7 prepare5Command).2 (by decide)⟩

/-- C10: an inbound prepare on a node that believes itself leader fires the
we_are_the_leader assertion of receive_prepare and halts the process; no
fail reply is produced. -/
theorem claim_c10_leader_prepare_asserts : ∀ (pid : Nat) (cmd : Command),
    basic_paxos.receive_prepare true pid cmd =
      Except.error PaxosAbort.assertViolation := by
  intro pid cmd; rfl

/-- C5 counterexample: a client request arriving at a non-leader makes
basic_paxos::start fire its we_are_the_leader assertion; the run aborts
without any command being written, so no incorrect_proposal error reaches
the client. -/
theorem claim_c5_counterexample :
    basic_paxos.start false 0 [(1, RemoteState.state_follower)] clientCommand =
      Except.error PaxosAbort.assertViolation := rfl

/-- C5 amended: when a client submits a request to a node that is not the
leader, the node refuses the request by a failed assertion that halts the
process; no incorrect_proposal error command is written to the client. -/
theorem claim_c5_nonleader_request_asserts :
    ∀ (pid : Nat) (servers : List (Nat × RemoteState)) (cmd : Command),
      basic_paxos.start false pid servers cmd =
        Except.error PaxosAbort.assertViolation := by
  intro pid servers cmd; rfl

/-- C4: a fail reply in a leader round only records response_reject; the
handler returns with no command written at all — the round is neither
terminated nor is any error surfaced on the client connection, and a later
promise from the remaining peer still writes nothing (the round stalls). -/
theorem claim_c4_fail_surfaces_no_error :
    basic_paxos.receive_promise true (fun s => s) 9 1 "ab" failCommand
        ⟨[(1, Response.response_none), (2, Response.response_none)], []⟩ =
      Except.ok
        (⟨[(1, Response.response_reject), (2, Response.response_none)], []⟩, []) ∧
    basic_paxos.receive_promise true (fun s => s) 9 2 "ab" promiseCommand
        ⟨[(1, Response.response_reject), (2, Response.response_none)], []⟩ =
      Except.ok
        (⟨[(1, Response.response_reject), (2, Response.response_ack)], []⟩, []) :=
  ⟨rfl, rfl⟩

/-- C6: a completing round whose recorded responses differ byte-wise is
reported to the client as a normal accepted reply carrying the last-seen
payload; no inconsistent_response error is raised. -/
theorem claim_c6_mismatch_reported_normally :
    basic_paxos.receive_accepted
        ⟨[(1, Response.response_ack), (2, Response.response_ack)], [(1, "a")]⟩ 2
        acceptedBCommand =
      Except.ok
        (⟨[(1, Response.response_ack), (2, Response.response_ack)],
          [(1, "a"), (2, "b")]⟩,
         [(Dest.client, acceptedBCommand)]) ∧
    ("a" : String) ≠ "b" :=
  ⟨rfl, by decide⟩

/-- C8: when the accept phase is entered, the leader's self-step applies the
workload handler to the workload field of the received promise command —
which is empty, since receive_prepare sets only the type of its reply — and
not to the request payload: with the identity handler and request payload
pq, the response recorded for the leader's own endpoint 8 is the empty
string, not pq. -/
theorem claim_c8_self_step_uses_promise_workload :
    basic_paxos.receive_promise true (fun s => s) 8 3 "pq" promiseCommand
        ⟨[(3, Response.response_none)], []⟩ =
      Except.ok
        (⟨[(3, Response.response_ack), (8, Response.response_ack)], [(8, "")]⟩,
         [(Dest.peer 3, basic_paxos.acceptCommand "pq")]) ∧
    ("pq" : String) ≠ "" :=
  ⟨rfl, by decide⟩

theorem receive_accepted_ok_mk {acc : List (Nat × Response)}
    {resp : List (Nat × String)} {e : Nat} {cmd : Command}
    {st' : RoundState} {outs : List (Dest × Command)}
    (h : basic_paxos.receive_accepted ⟨acc, resp⟩ e cmd = Except.ok (st', outs)) :
    st'.accepted = acc ∧ (outs = [] ∨ outs = [(Dest.client, cmd)]) :=
  ⟨(receive_accepted_ok h).1, (receive_accepted_ok h).2.2⟩

/-- C1: in a leader round, an accept command is emitted by receive_promise
only when every entry of the acks map is promised, and only to an endpoint
whose entry is promised: any peer-destined accept in the output leaves the
round with every ack equal to response_ack, the target endpoint promised,
and the command carrying the request payload. -/
theorem claim_c1_accept_only_when_all_promised :
    ∀ (handler : String → String) (self_e server_e : Nat) (w : String)
      (cmd : Command) (st st' : RoundState) (outs : List (Dest × Command))
      (e' : Nat) (c : Command),
      basic_paxos.receive_promise true handler self_e server_e w cmd st =
        Except.ok (st', outs) →
      (Dest.peer e', c) ∈ outs →
      c = basic_paxos.acceptCommand w ∧
      (∀ p ∈ st'.accepted, p.2 = Response.response_ack) ∧
      lookupA st'.accepted e' = some Response.response_ack := by
  intro handler self_e server_e w cmd st st' outs e' c hok hm
  unfold basic_paxos.receive_promise at hok
  rw [if_pos rfl] at hok
  cases hr : basic_paxos.ackOfReply cmd.type with
  | error err => rw [hr] at hok; simp at hok
  | ok r =>
      rw [hr] at hok
      dsimp only at hok
      by_cases hev :
          basic_paxos.everyonePromised (setEntry st.accepted server_e r) = true
      · rw [if_pos hev] at hok
        cases hsa : basic_paxos.sendAccepts (setEntry st.accepted server_e r) w
            (setEntry st.accepted server_e r) with
        | error err => rw [hsa] at hok; simp at hok
        | ok accepts =>
            rw [hsa] at hok
            dsimp only at hok
            cases hra : basic_paxos.receive_accepted
                ⟨setEntry (setEntry st.accepted server_e r) self_e
                    Response.response_ack, st.responses⟩ self_e
                { type := CommandType.type_request_accepted,
                  workload := handler cmd.workload } with
            | error err => rw [hra] at hok; simp at hok
            | ok q =>
                obtain ⟨st3, outs2⟩ := q
                rw [hra] at hok
                dsimp only at hok
                simp only [Except.ok.injEq, Prod.mk.injEq] at hok
                obtain ⟨h1, h2⟩ := hok
                subst h1
                subst h2
                have hacc3 := (receive_accepted_ok_mk hra).1
                have hall : ∀ p ∈ setEntry st.accepted server_e r,
                    p.2 = Response.response_ack := (everyonePromised_iff _).mp hev
                rcases List.mem_append.mp hm with hmem | hmem
                · obtain ⟨e0, he0, hc0, hl0⟩ := sendAccepts_ok_mem hsa hmem
                  injection he0 with he'
                  subst he'
                  refine ⟨hc0, ?_, ?_⟩
                  · rw [hacc3]
                    intro p hp
                    rcases mem_setEntry hp with h | h
                    · exact hall p h
                    · rw [h]
                  · rw [hacc3]
                    by_cases hse : self_e = e'
                    · subst hse
                      exact lookupA_setEntry_self _ _ _
                    · rw [lookupA_setEntry_ne _ _ _ _ hse]
                      exact hl0
                · rcases (receive_accepted_ok_mk hra).2 with h0 | h0
                  · rw [h0] at hmem; simp at hmem
                  · rw [h0] at hmem; simp at hmem
      · rw [if_neg hev] at hok
        simp only [Except.ok.injEq, Prod.mk.injEq] at hok
        obtain ⟨h1, h2⟩ := hok
        subst h2
        simp at hm

/-- Witness for C1: a concrete one-peer round whose promise makes the
leader enter the accept phase and emit one accept to endpoint 2. -/
theorem claim_c1_accept_only_when_all_promised_witness :
    basic_paxos.acceptCommand "xy" = basic_paxos.acceptCommand "xy" ∧
    (∀ p ∈ (⟨[(2, Response.response_ack), (7, Response.response_ack)],
        [(7, "")]⟩ : RoundState).accepted, p.2 = Response.response_ack) ∧
    lookupA (⟨[(2, Response.response_ack), (7, Response.response_ack)],
        [(7, "")]⟩ : RoundState).accepted 2 = some Response.response_ack :=
  claim_c1_accept_only_when_all_promised (fun s => s) 7 2 "xy" promiseCommand
    ⟨[(2, Response.response_none)], []⟩
    ⟨[(2, Response.response_ack), (7, Response.response_ack)], [(7, "")]⟩
    [(Dest.peer 2, basic_paxos.acceptCommand "xy")] 2
    (basic_paxos.acceptCommand "xy") rfl (List.mem_singleton.mpr rfl)

/-- C3 counterexample: the uint64_t ++ of start wraps.  A node whose counter
was raised to 2^64 - 2 by a single inbound prepare (receive_prepare copies
any received 64-bit value) and then became leader assigns its next two
client requests the proposal ids 2^64 - 1 and 0: the counter decreases
under the second start, and the two request ids are not strictly
increasing. -/
theorem claim_c3_counterexample :
    basic_paxos.start true (uint64Size - 1) [] clientCommand =
      Except.ok (0, ⟨[], []⟩, []) ∧
    requestIds (uint64Size - 2)
        [LeaderEvent.request [] clientCommand,
         LeaderEvent.request [] clientCommand] = [uint64Size - 1, 0] ∧
    ¬ ([uint64Size - 1, 0] : List Nat).Pairwise (fun a b => a < b) := by
  refine ⟨rfl, rfl, ?_⟩
  simp [List.pairwise_cons]

/-- C3 amended: the counter never decreases under receive_prepare; start
assigns exactly (counter + 1) mod 2^64, hence exactly counter + 1 whenever
the counter has not reached 2^64 - 1; and along any leader trace during
which the counter never wraps, the proposal ids assigned to successive
client requests are strictly increasing. -/
theorem claim_c3_counter_monotone :
    (∀ (b : Bool) (pid : Nat) (cmd : Command) (out : Nat × Command),
        basic_paxos.receive_prepare b pid cmd = Except.ok out → pid ≤ out.1)
  ∧ (∀ (b : Bool) (pid : Nat) (servers : List (Nat × RemoteState))
        (cmd : Command) (out : Nat × RoundState × List (Dest × Command)),
        basic_paxos.start b pid servers cmd = Except.ok out →
        out.1 = (pid + 1) % uint64Size ∧
        (pid + 1 < uint64Size → out.1 = pid + 1))
  ∧ (∀ (pid : Nat) (evs : List LeaderEvent),
        pid + evs.length < uint64Size →
        (requestIds pid evs).Pairwise (fun a b => a < b)) := by
  refine ⟨?_, ?_, ?_⟩
  · intro b pid cmd out h
    obtain ⟨o1, o2⟩ := out
    cases b with
    | true => simp [basic_paxos.receive_prepare] at h
    | false =>
        by_cases hgt : cmd.proposal_id > pid
        · simp [basic_paxos.receive_prepare, hgt] at h
          obtain ⟨h1, h2⟩ := h
          omega
        · simp [basic_paxos.receive_prepare, hgt] at h
          obtain ⟨h1, h2⟩ := h
          omega
  · intro b pid servers cmd out h
    refine ⟨start_ok_pid h, fun hlt => ?_⟩
    rw [start_ok_pid h, Nat.mod_eq_of_lt hlt]
  · exact fun pid evs hb => requestIds_pairwise evs pid hb

/-- Witness for C3: a prepare with id 5 raises counter 3 to 5; a client
request at counter 0 (no wrap) is assigned id 1; two successive requests
on one leader, starting from counter 0, get strictly increasing ids. -/
theorem claim_c3_counter_monotone_witness :
    (3 : Nat) ≤ 5 ∧ (1 : Nat) = 0 + 1 ∧
    (requestIds 0
      [LeaderEvent.request [(1, RemoteState.state_follower)] clientCommand,
       LeaderEvent.request [(1, RemoteState.state_follower)] clientCommand]).Pairwise
      (fun a b => a < b) :=
  ⟨claim_c3_counter_monotone.1 false 3 prepare5Command
      (5, { type := CommandType.type_request_promise }) rfl,
   (claim_c3_counter_monotone.2.1 true 0 [(1, RemoteState.state_follower)]
      clientCommand
      (1, ⟨[(1, Response.response_none)], []⟩,
       [(Dest.peer 1,
         { type := CommandType.type_request_prepare, proposal_id := 1 })])
      rfl).2 (by decide),
   claim_c3_counter_monotone.2.2 0 _ (by decide)⟩

/-- C7: receive_accepted records at most one response per originating
endpoint (a second accepted from the same endpoint fires the assertion),
and — in the accept phase, where every acks entry is promised — the round
completes exactly when the number of recorded responses equals the number
of promised acks entries, at which point the single accepted reply written
to the client carries the command (and hence the payload) last received. -/
theorem claim_c7_response_collection :
    ∀ (st : RoundState) (e : Nat) (cmd : Command),
      (∀ p ∈ st.accepted, p.2 = Response.response_ack) →
      ((lookupA st.responses e).isSome →
          basic_paxos.receive_accepted st e cmd =
            Except.error PaxosAbort.assertViolation)
      ∧ (lookupA st.responses e = none →
          basic_paxos.receive_accepted st e cmd =
            Except.ok
              ({ st with responses := setEntry st.responses e cmd.workload },
               if (setEntry st.responses e cmd.workload).length
                    = promisedCount st.accepted
               then [(Dest.client, cmd)] else [])) := by
  intro st e cmd hall
  have hfilter : promisedCount st.accepted = st.accepted.length := by
    unfold promisedCount
    have hf : st.accepted.filter (fun p => p.2 == Response.response_ack)
        = st.accepted := by
      apply List.filter_eq_self.mpr
      intro a ha
      exact beq_iff_eq.mpr (hall a ha)
    rw [hf]
  constructor
  · intro hs
    unfold basic_paxos.receive_accepted
    rw [if_pos hs]
  · intro hn
    by_cases hlen :
        (setEntry st.responses e cmd.workload).length = st.accepted.length
    · simp [basic_paxos.receive_accepted, hn, hlen, hfilter]
    · simp [basic_paxos.receive_accepted, hn, hlen, hfilter]

/-- Witness for C7: a one-promise round with no response yet completes on
the first accepted reply and forwards it to the client. -/
theorem claim_c7_response_collection_witness :
    basic_paxos.receive_accepted ⟨[(4, Response.response_ack)], []⟩ 4
        acceptedQCommand =
      Except.ok (⟨[(4, Response.response_ack)], [(4, "q")]⟩,
                 [(Dest.client, acceptedQCommand)]) := by
  have h := (claim_c7_response_collection ⟨[(4, Response.response_ack)], []⟩ 4
      acceptedQCommand (by decide)).2 rfl
  exact h

/-- C9: running handshake step4 a second time against the same live peer
(same self-reported command, possibly a new connection) leaves the peer
record exactly as after the first run: identity and state equal the peer's
self-reported values, and the cached connection is set only when the
record had none. -/
theorem claim_c9_handshake_idempotent :
    ∀ (ep conn1 conn2 : Nat) (cmd : Command) (rec r1 : handshake.PeerRecord),
      handshake.step4 ep conn1 cmd rec = Except.ok r1 →
      handshake.step4 ep conn2 cmd r1 = Except.ok r1 ∧
      r1.id = cmd.host_id ∧ r1.state = cmd.host_state ∧
      (∀ x, rec.connection = some x → r1.connection = some x) ∧
      (rec.connection = none → r1.connection = some conn1) := by
  intro ep conn1 conn2 cmd rec r1 h
  obtain ⟨rid, rstate, rconn⟩ := rec
  by_cases hep : cmd.host_endpoint = ep
  · cases rconn with
    | none =>
        simp only [handshake.step4, if_pos hep] at h
        simp only [Option.isSome_none, Bool.false_eq_true, if_false,
          Except.ok.injEq] at h
        subst h
        simp [handshake.step4, hep]
    | some x =>
        simp only [handshake.step4, if_pos hep] at h
        simp only [Option.isSome_some, if_true, Except.ok.injEq] at h
        subst h
        simp [handshake.step4, hep]
  · simp [handshake.step4, hep] at h

/-- Witness for C9: a second handshake run over a fresh connection 11
leaves the record produced by the first run (id 77, follower, connection
10) unchanged. -/
theorem claim_c9_handshake_idempotent_witness :
    handshake.step4 5 11 handshakeResponseCommand
        ⟨77, RemoteState.state_follower, some 10⟩ =
      Except.ok ⟨77, RemoteState.state_follower, some 10⟩ ∧
    (⟨77, RemoteState.state_follower, some 10⟩ : handshake.PeerRecord).id =
      handshakeResponseCommand.host_id := by
  have h := claim_c9_handshake_idempotent 5 10 11 handshakeResponseCommand
    ⟨0, RemoteState.state_unknown, none⟩
    ⟨77, RemoteState.state_follower, some 10⟩ rfl
  exact ⟨h.1, h.2.1⟩
